import Mathlib

/-!
Verification of the QEMU Washing-Machine-Simulator bridge (`qemu_wms.py`)
against its natural-language specification.

The development shallowly embeds the protocol bridge: the message framer
(`QEmuListener.read`), the token decoder of the listener loop
(`QEmuListener.listen`), the send loop (`QEmuListener.write`), the board
state machine (`WmsBoard`), and the message-dispatch / resync / timer
logic of the GUI (`WmsGui`).  Bytes are modelled as natural numbers
below 256, byte strings as `List Nat`, text tokens as `List Char`.
Side effects (socket writes and canvas renders) are returned as explicit
event lists.
-/

namespace QemuWms

/-! ## Message framer: `QEmuListener.read`

The Python code keeps `recv_buffer` (the carry), prepends it to freshly
received bytes, strips leading `0xFF _ _` escape triplets, moves the
trailing unterminated token back into the carry, decodes the rest as
ASCII and splits it on whitespace. -/

/-- ASCII whitespace bytes, as recognised by Python `bytes.isspace`:
space, tab, LF, VT, FF, CR. -/
def isWS (b : Nat) : Bool :=
  b == 32 || b == 9 || b == 10 || b == 11 || b == 12 || b == 13

/-- Model of `while data and data[0] == 0xff: data = data[3:]`: repeatedly drop a
3-byte escape triplet (`data[3:]` of a shorter buffer is empty) while the
buffer starts with `0xFF`. -/
def stripEsc : List Nat → List Nat
  | [] => []
  | b :: rest =>
    if b == 255 then
      match rest with
      | [] => []
      | [_] => []
      | _ :: _ :: rest2 => stripEsc rest2
    else b :: rest

/-- Model of the pop loop `while data and not data[-1:].isspace()`:
— split the buffer into the kept part (ending in whitespace, or empty) and
the trailing run of non-whitespace bytes that becomes the next carry.
Returns `(kept, carry)`. -/
def splitTail (data : List Nat) : List Nat × List Nat :=
  let r := data.reverse
  ((r.dropWhile (fun b => !isWS b)).reverse, (r.takeWhile (fun b => !isWS b)).reverse)

/-- Split a byte list into maximal runs of non-whitespace bytes
(Python `str.split()` on the decoded text; decoding is byte-for-char for
ASCII data so tokens are kept as byte lists). -/
def tokenize : List Nat → List Nat → List (List Nat)
  | acc, [] => if acc.isEmpty then [] else [acc.reverse]
  | acc, b :: rest =>
    if isWS b then
      if acc.isEmpty then tokenize [] rest else acc.reverse :: tokenize [] rest
    else tokenize (b :: acc) rest

/-- One call of `QEmuListener.read` on carry `carry` with freshly received
bytes `chunk`.  Returns the token lists produced (`none` when the ASCII
decode raises `ValueError`, reported as a receiver-timeout warning) and the
new carry.  The carry is updated even when the decode fails, exactly as in
the source where the pop loop runs before `data.decode('ascii')`. -/
def read (carry chunk : List Nat) : Option (List (List Nat)) × List Nat :=
  ((if (splitTail (stripEsc (carry ++ chunk))).1.all (fun b => b < 128) then
      some (tokenize [] (splitTail (stripEsc (carry ++ chunk))).1)
    else none),
   (splitTail (stripEsc (carry ++ chunk))).2)

/-- Feed a sequence of received chunks through successive `read` calls,
starting from carry `carry`; collect all tokens produced (a failed decode
produces none and the listener loop continues) and the final carry. -/
def readAll (carry : List Nat) : List (List Nat) → List (List Nat) × List Nat
  | [] => ([], carry)
  | chunk :: rest =>
    (((read carry chunk).1.getD []) ++ (readAll (read carry chunk).2 rest).1,
     (readAll (read carry chunk).2 rest).2)

/-- The token sequence produced by feeding `chunks` to successive receive
calls of a fresh framer. -/
def framerTokens (chunks : List (List Nat)) : List (List Nat) :=
  (readAll [] chunks).1

/-! ## Protocol decoder: the token dispatch of `QEmuListener.listen`

Each whitespace-terminated token is dispatched on its first character.
The `listen` loop catches only `UserWarning` and `OSError`; the
`ValueError`/`IndexError` that `int(reply[2], 16)` or `int(value, 16)`
can raise on a malformed token is *not* caught and terminates the
listener thread.  We model that outcome as `TokenResult.crash`. -/

-- Message tags of class `QEmuTag`.
namespace QEmuTag

def pin_low : Nat := 0
def pin_high : Nat := 1
def gpiod_enabled : Nat := 11
def command : Nat := 12
def moder : Nat := 13
def idr : Nat := 14
def warning : Nat := 15
def usart3_enabled : Nat := 21
def sr : Nat := 22
def cr1 : Nat := 23

end QEmuTag

/-- The `REPLY_MAP` table: reply-command prefix → message tag. -/
def REPLY_MAP : List (List Char × Nat) :=
  [("=m40023830".toList, QEmuTag.gpiod_enabled),
   ("=m40023840".toList, QEmuTag.usart3_enabled),
   ("=d0".toList, QEmuTag.moder), ("=d4".toList, QEmuTag.idr),
   ("=u0".toList, QEmuTag.sr), ("=u3".toList, QEmuTag.cr1)]

/-- Lookup `REPLY_MAP.get(cmd)` (note: the source does not lower-case `cmd`). -/
def replyLookup (cmd : List Char) : Option Nat :=
  (REPLY_MAP.find? (fun p => p.1 == cmd)).map (fun p => p.2)

/-- Model of `int(c, 16)` on a single ASCII character: its hexadecimal value, or
`none` when Python raises `ValueError`. -/
def hexDigit (c : Char) : Option Nat :=
  if '0' ≤ c ∧ c ≤ '9' then some (c.toNat - 48)
  else if 'a' ≤ c ∧ c ≤ 'f' then some (c.toNat - 87)
  else if 'A' ≤ c ∧ c ≤ 'F' then some (c.toNat - 55)
  else none

/-- Model of `int(s, 16)` on a plain hexadecimal string: `none` on the empty
string or when a character is not a hex digit (Python additionally
accepts signs and underscores, which the wire protocol never produces;
every theorem below stays inside the plain-hex domain where this
definition agrees with Python). -/
def parseHex : List Char → Option Nat
  | [] => none
  | [c] => hexDigit c
  | c :: rest =>
    match hexDigit c, parseHex rest with
    | some d, some v => some (d * 16 ^ rest.length + v)
    | _, _ => none

/-- Model of `reply.partition('?/')`: split at the first occurrence of the
two-character separator; `none` when the separator does not occur. -/
def splitSep : List Char → Option (List Char × List Char)
  | [] => none
  | '?' :: '/' :: rest => some ([], rest)
  | c :: rest =>
    match splitSep rest with
    | some (a, b) => some (c :: a, b)
    | none => none

/-- Outcome of dispatching one token in the `listen` loop. -/
inductive TokenResult where
  /-- A `self.gui.warning(...)` call was made; the loop continues. -/
  | warn : TokenResult
  /-- A `self.gui.event(tag, value)` call was made; the loop continues. -/
  | event : Nat → Nat → TokenResult
  /-- No branch matched; the token is ignored and the loop continues. -/
  | ignored : TokenResult
  /-- An uncaught `ValueError`/`IndexError` escaped the `try` block,
  terminating the listener thread. -/
  | crash : TokenResult
deriving DecidableEq, Repr

/-- Model of `int(reply[2], 16)` wrapped into its event: the third character of
the token must exist and be a hex digit, otherwise the uncaught
`IndexError`/`ValueError` kills the listener thread. -/
def pinEvent (tag : Nat) (reply : List Char) : TokenResult :=
  match reply.drop 2 with
  | c :: _ =>
    match hexDigit c with
    | some d => .event tag d
    | none => .crash
  | [] => .crash

/-- The `reply.startswith('=')` branch: partition on `?/`, look the
command prefix up in `REPLY_MAP`, parse the value as hex. -/
def eqEvent (reply : List Char) : TokenResult :=
  match splitSep reply with
  | none => .warn
  | some (cmd, value) =>
    match replyLookup cmd with
    | none => .warn
    | some tag =>
      match parseHex value with
      | some v => .event tag v
      | none => .crash

/-- Dispatch of one token `reply` inside `QEmuListener.listen`, the
`startswith` chain of the source. -/
def processToken (reply : List Char) : TokenResult :=
  if reply.head? = some '?' then .warn
  else if reply.head? = some '-' then pinEvent QEmuTag.pin_low reply
  else if reply.head? = some '+' then pinEvent QEmuTag.pin_high reply
  else if reply.head? = some '=' then eqEvent reply
  else .ignored

/-- One pass of the `for reply in replies` loop over a batch of tokens:
the results produced before the loop dies, and whether an uncaught
exception aborted the listener. -/
def processTokens : List (List Char) → List TokenResult × Bool
  | [] => ([], false)
  | t :: rest =>
    match processToken t with
    | .crash => ([.crash], true)
    | r =>
      let (rs, ab) := processTokens rest
      (r :: rs, ab)

/-! ## Send loop: `QEmuListener.write`

`total = 0; while total < len(message): sent = send(message[total:]);
if sent == 0: warn; total += sent`.  The values returned by successive
`socket.send` calls are supplied as an oracle list; the model performs
one loop iteration per oracle entry while the loop condition holds.
Result: `(total, warningsIssued, loopExited)`. -/

def writeRun (len : Nat) : List Nat → Nat → Nat × Nat × Bool
  | [], total => (total, 0, decide (len ≤ total))
  | sent :: rest, total =>
    if total < len then
      let (t, w, f) := writeRun len rest (total + sent)
      (t, (if sent == 0 then 1 else 0) + w, f)
    else (total, 0, true)

/-! ## Board state machine: `WmsBoard` and the static `Board` table -/

/-- Button behaviours (`ButtonStyle`). -/
inductive ButtonStyle where
  | plain : ButtonStyle
  | latch : ButtonStyle
  | door : ButtonStyle
deriving DecidableEq, Repr

/-- The `Button` namedtuple: `name pin style down up x y radius`. -/
structure Button where
  name : String
  pin : Option Nat
  style : ButtonStyle
  down : String
  up : String
  x : Nat
  y : Nat
  radius : Nat
deriving DecidableEq, Repr

/-- The static `Board.buttons` table, field for field from the source. -/
def Board.buttons : List Button :=
  [⟨"reset", none, .plain, "", "reset ", 32, 200, 8⟩,
   ⟨"door", some 0, .door, "D0L0 ", "D0d0 ", 730, 310, 15⟩,
   ⟨"PS1", some 1, .latch, "D0L1 ", "D0d1 ", 730, 130, 12⟩,
   ⟨"PS2", some 2, .latch, "D0L2 ", "D0d2 ", 695, 130, 12⟩,
   ⟨"PS3", some 3, .latch, "D0L3 ", "D0d3 ", 665, 130, 12⟩,
   ⟨"cancel", some 4, .latch, "D0L4 ", "D0d4 ", 615, 130, 12⟩,
   ⟨"accept", some 5, .latch, "D0L5 ", "D0d5 ", 575, 130, 12⟩,
   ⟨"motor", some 6, .plain, "D0L6 ", "D0d6 ", 650, 230, 50⟩]

/-- Keys of the `Board.overlays` dictionary; `update_button` renders only
for buttons whose name has an overlay entry. -/
def Board.overlayTags : List String :=
  ["led", "PS1", "PS2", "PS3", "sseg", "motor", "spinner", "door"]

/-- Mutable state of `WmsBoard` (canvas handle omitted; renders are
returned as explicit `(overlayTag, imageIndex)` events instead). -/
structure BoardState where
  latch : Bool
  latched : List Bool
  sseg : Nat
  motor : Bool
  sprite : Nat
  direction : Nat
deriving DecidableEq, Repr

/-- State built by `WmsBoard.__init__`: latch off, 8 latched flags all false, counters 0. -/
def initBoard : BoardState :=
  { latch := false, latched := List.replicate 8 false,
    sseg := 0, motor := false, sprite := 0, direction := 0 }

/-- A render event: overlay tag and image index passed to
`canvas.create_image`. -/
abbrev Render := String × Nat

/-- Pin of a button in a context where the source indexes
`self.latched[button.pin]`; every Latch/Door button of the table carries
a pin, so the default is never taken on real inputs. -/
def pinOf (b : Button) : Nat := b.pin.getD 0

def latchedAt (st : BoardState) (b : Button) : Bool :=
  st.latched.getD (pinOf b) false

def setLatched (st : BoardState) (b : Button) (v : Bool) : BoardState :=
  { st with latched := st.latched.set (pinOf b) v }

/-- Model of `if qemu and cmd: qemu.write(cmd)` — the empty string is falsy. -/
def sendIf (qemu : Bool) (cmd : String) : List String :=
  if qemu ∧ cmd ≠ "" then [cmd] else []

/-- Model of `WmsBoard.update_button`: render the button's overlay at `level`
when an overlay with the button's name exists. -/
def update_button (b : Button) (level : Nat) : List Render :=
  if Board.overlayTags.contains b.name then [(b.name, level)] else []

/-- Model of `WmsBoard.button_down(button, qemu)`: returns the new state, the
commands written to the socket, and the renders issued. -/
def button_down (b : Button) (qemu : Bool) (st : BoardState) :
    BoardState × List String × List Render :=
  match b.style with
  | .latch =>
    if st.latch ∧ latchedAt st b then (st, [], [])
    else (setLatched st b st.latch, sendIf qemu b.down, update_button b 1)
  | .door =>
    if latchedAt st b then (setLatched st b false, [], [])
    else (setLatched st b true, sendIf qemu b.down, update_button b 1)
  | .plain => (st, sendIf qemu b.down, update_button b 1)

/-- Model of `WmsBoard.button_up(button, qemu)`. -/
def button_up (b : Button) (qemu : Bool) (st : BoardState) :
    BoardState × List String × List Render :=
  match b.style with
  | .latch =>
    if st.latch ∧ latchedAt st b then (st, [], [])
    else (st, sendIf qemu b.up, update_button b 0)
  | .door =>
    if latchedAt st b then (st, [], [])
    else (st, sendIf qemu b.up, update_button b 0)
  | .plain => (st, sendIf qemu b.up, update_button b 0)

/-- The pin-14 clear loop of `update_device`: for every Latch-style
button, clear its latched flag and (when a listener is attached) write
its up command.  Writes follow the iteration order of `Board.buttons`. -/
def clearLatches (qemu : Bool) : List Button → List Bool → List Bool × List String
  | [], latched => (latched, [])
  | b :: rest, latched =>
    if b.style = .latch then
      let (l2, w) := clearLatches qemu rest (latched.set (pinOf b) false)
      (l2, (if qemu then [b.up] else []) ++ w)
    else clearLatches qemu rest latched

/-- Model of `WmsBoard.update_device(pin, level, qemu)`.  Pin 8–11: update the
segment mask and render the led and segment overlays; pin 12: motor flag;
pin 13: direction; pin 14: latch enable, with the clear/up/render loop
whenever the new level is zero; any other pin: no branch matches and the
call is a no-op. -/
def update_device (pin level : Nat) (qemu : Bool) (st : BoardState) :
    BoardState × List String × List Render :=
  if 8 ≤ pin ∧ pin ≤ 11 then
    let bit := 1 <<< (pin - 8)
    let sseg2 := if level ≠ 0 then st.sseg ||| bit
                 else if st.sseg.testBit (pin - 8) then st.sseg - bit else st.sseg
    ({ st with sseg := sseg2 }, [], [("led", level), ("sseg", sseg2)])
  else if pin = 12 then
    ({ st with motor := level != 0 }, [],
     ("motor", st.sprite) :: (if st.motor ∧ level = 0 then [("spinner", 0)] else []))
  else if pin = 13 then
    ({ st with direction := level }, [], [])
  else if pin = 14 then
    if level != 0 then ({ st with latch := true }, [], [])
    else
      let (l2, w) := clearLatches qemu Board.buttons st.latched
      ({ st with latch := false, latched := l2 }, w,
       [("PS1", 0), ("PS2", 0), ("PS3", 0)])
  else (st, [], [])

/-- Model of `WmsBoard.animate`: when the motor flag is set, render the current
motor sprite, advance the sprite frame cyclically over the 3 images, and
render the spinner for the current direction. -/
def animate (st : BoardState) : BoardState × List Render :=
  if st.motor then
    ({ st with sprite := (st.sprite + 1) % 3 },
     [("motor", st.sprite), ("spinner", st.direction + 1)])
  else (st, [])

/-! ## Resync pass (`WmsGui.on_message`, `QEmuTag.idr` branch)

When an Idr value arrives with `connecting` still set: for each pin
8–14 whose bit is set, `update_device(pin, 1, self.listener)`; then for
each button with a pin whose bit is set, `button_down(button, None)`
followed by `button_up(button, None)`. -/

/-- The pin replay loop of the resync pass (renders discarded; the pass
is characterised by its state change and socket writes). -/
def resyncPins (value : Nat) (qemu : Bool) : List Nat → BoardState → BoardState × List String
  | [], st => (st, [])
  | p :: rest, st =>
    if value.testBit p then
      let st2 := (update_device p 1 qemu st).1
      ((resyncPins value qemu rest st2).1,
       (update_device p 1 qemu st).2.1 ++ (resyncPins value qemu rest st2).2)
    else resyncPins value qemu rest st

/-- The button replay loop of the resync pass: synthesised down/up with
the listener argument `None`, so no writes can be issued. -/
def resyncButtons (value : Nat) : List Button → BoardState → BoardState × List String
  | [], st => (st, [])
  | b :: rest, st =>
    match b.pin with
    | none => resyncButtons value rest st
    | some p =>
      if value.testBit p then
        let st2 := (button_down b false st).1
        let st3 := (button_up b false st2).1
        ((resyncButtons value rest st3).1,
         (button_down b false st).2.1 ++ (button_up b false st2).2.1 ++
           (resyncButtons value rest st3).2)
      else resyncButtons value rest st

/-- The whole resync pass over an Idr value, `qemu` being the listener
handle passed to `update_device` (truthy while connected). -/
def resyncPass (value : Nat) (qemu : Bool) (st : BoardState) :
    BoardState × List String :=
  let st2 := (resyncPins value qemu [8, 9, 10, 11, 12, 13, 14] st).1
  ((resyncButtons value Board.buttons st2).1,
   (resyncPins value qemu [8, 9, 10, 11, 12, 13, 14] st).2 ++
     (resyncButtons value Board.buttons st2).2)

/-! ## Connection / resync lifecycle (`WmsGui`)

`self.connecting = True` is assigned once, in `WmsGui.__init__`;
`do_connect` creates the listener but never touches `connecting`; the
Idr branch of `on_message` clears it after running the resync pass. -/

structure GuiState where
  connecting : Bool
  connected : Bool
  board : BoardState
deriving DecidableEq, Repr

/-- State built by `WmsGui.__init__`: `connecting = True`, no listener yet. -/
def initGui : GuiState :=
  { connecting := true, connected := false, board := initBoard }

/-- Externally driven events of the connection lifecycle. -/
inductive GuiEvent where
  /-- the success path of `do_connect`: a new listener is attached -/
  | connect : GuiEvent
  /-- an `idr` register reply dispatched by `on_message` -/
  | idr : Nat → GuiEvent
  /-- a `pin_low` event dispatched by `on_message` -/
  | pinLow : Nat → GuiEvent
  /-- a `pin_high` event dispatched by `on_message` -/
  | pinHigh : Nat → GuiEvent
deriving DecidableEq, Repr

/-- One lifecycle step.  Returns the new state and whether the resync
replay branch (`if self.connecting:`) ran on this event. -/
def guiStep (st : GuiState) (e : GuiEvent) : GuiState × Bool :=
  match e with
  | .connect => ({ st with connected := true }, false)
  | .idr value =>
    if st.connecting then
      ({ st with connecting := false,
                 board := (resyncPass value st.connected st.board).1 }, true)
    else (st, false)
  | .pinLow p =>
    ({ st with board := (update_device p 0 st.connected st.board).1 }, false)
  | .pinHigh p =>
    ({ st with board := (update_device p 1 st.connected st.board).1 }, false)

/-- For every event of a trace, whether the resync replay ran on it. -/
def resyncTrace (st : GuiState) : List GuiEvent → List Bool
  | [] => []
  | e :: rest => (guiStep st e).2 :: resyncTrace (guiStep st e).1 rest

/-- Marks the first Idr event of a trace, every other event false. -/
def markFirstIdr : List GuiEvent → List Bool
  | [] => []
  | .idr _ :: rest => true :: rest.map (fun _ => false)
  | _ :: rest => false :: markFirstIdr rest

/-! ## Timer tick (`WmsGui.on_timer_running`)

Each 100 ms tick: poll the serial port, issue register queries when the
corresponding enabled flag is set, animate the board, and issue the
enable probes.  `do_check_status` — the only code that ages and clears
`warn_ticks`/the warning label — is defined in the source but never
invoked by `on_timer_running` (or anywhere else). -/

structure TimerState where
  warnText : String
  warnTicks : Nat
  deviceTicks : Nat
  gpiod : Bool
  usart3 : Bool
  connected : Bool
  serial : Bool
  board : BoardState
deriving DecidableEq, Repr

/-- Model of `WmsGui.do_warning`: a non-empty message is displayed (the source
prefixes a wall-clock timestamp, omitted here) and starts its tick
counter at `POLL`; the empty message clears the display. -/
def do_warning (msg : String) (st : TimerState) : TimerState :=
  if msg ≠ "" then { st with warnText := msg, warnTicks := 100 }
  else { st with warnText := "", warnTicks := 0 }

/-- One `on_timer_running` tick: serial poll (no state here), register
queries (`do_query_qemu`), `board.animate`, enable probes.  The warning
fields are not touched. -/
def on_timer_running (st : TimerState) : TimerState × List String :=
  let queryWrites := (if st.gpiod then ["D0? ", "D4? "] else []) ++
                     (if st.usart3 then ["U0? ", "U3? "] else [])
  let (b2, _) := animate st.board
  let probeWrites :=
    if st.connected then
      "M40023830? " :: (if st.serial then ["M40023840? "] else [])
    else []
  ({ st with board := b2 }, queryWrites ++ probeWrites)

/-- Iterate `n` successive timer ticks. -/
def runTimer (st : TimerState) : Nat → TimerState
  | 0 => st
  | n + 1 => runTimer (on_timer_running st).1 n

/-! ## Named table entries used by the theorems -/

def defaultButton : Button := ⟨"", none, .plain, "", "", 0, 0, 0⟩

/-- First entry of `Board.buttons`: the reset button. -/
def resetButton : Button := Board.buttons.getD 0 defaultButton

/-- Second entry of `Board.buttons`: the door button. -/
def doorButton : Button := Board.buttons.getD 1 defaultButton

/-- Third entry of `Board.buttons`: PS1. -/
def ps1Button : Button := Board.buttons.getD 2 defaultButton

/-- The four-step press/release/press/release sequence on one button
with a connected listener: final state, the four write lists and the
four render lists, in order. -/
def doorSequence (b : Button) (st : BoardState) :
    BoardState × List (List String) × List (List Render) :=
  let r1 := button_down b true st
  let r2 := button_up b true r1.1
  let r3 := button_down b true r2.1
  let r4 := button_up b true r3.1
  (r4.1, [r1.2.1, r2.2.1, r3.2.1, r4.2.1], [r1.2.2, r2.2.2, r3.2.2, r4.2.2])

/-! # Theorems -/

/-- Reading a just-set entry of a latched-flags list. -/
lemma getD_set_self (l : List Bool) (i : Nat) (v d : Bool) (h : i < l.length) :
    (l.set i v).getD i d = v := by
  induction l generalizing i with
  | nil => simp at h
  | cons a t ih =>
    cases i with
    | zero => rfl
    | succ n =>
      simp only [List.set_cons_succ, List.getD_cons_succ]
      exact ih n (by simpa using h)

/-- Claim C10. For every pin outside 8–14 and every level, `update_device`
is a no-op: the board state is returned unchanged and no write or render
is issued. -/
theorem C10_update_device_out_of_range (pin level : Nat) (q : Bool)
    (st : BoardState) (h : pin < 8 ∨ 14 < pin) :
    update_device pin level q st = (st, [], []) := by
  unfold update_device
  have h1 : ¬(8 ≤ pin ∧ pin ≤ 11) := by omega
  have h2 : pin ≠ 12 := by omega
  have h3 : pin ≠ 13 := by omega
  have h4 : pin ≠ 14 := by omega
  simp [h1, h2, h3, h4]

/-- Witness for C10 at pin 15. -/
theorem C10_witness :
    (15 < 8 ∨ 14 < 15) ∧ update_device 15 1 true initBoard = (initBoard, [], []) :=
  ⟨by decide, C10_update_device_out_of_range 15 1 true initBoard (by decide)⟩

/-- Claim C9, counterexample. The claim says the reset button's
`downCommand` is `"reset "` and pressing it sends `"reset "`.  In the
table the down command of reset is the empty string and a press writes
nothing (the up command is `"reset "`, sent on release). -/
theorem C9_counterexample :
    resetButton.down ≠ "reset " ∧ resetButton.down = "" ∧ resetButton.up = "reset " ∧
    (button_down resetButton true initBoard).2.1 = [] := by
  refine ⟨by decide, rfl, rfl, rfl⟩

/-- Claim C9, amended. The static table assigns reset (Plain style, no
pin) the empty down command and the up command `"reset "`: pressing
reset sends nothing, releasing it sends `"reset "`.  All command strings
are bit-exact as in the source table. -/
theorem C9_button_table (st : BoardState) :
    Board.buttons.map (fun b => (b.name, b.pin, b.style, b.down, b.up)) =
      [("reset", none, .plain, "", "reset "),
       ("door", some 0, .door, "D0L0 ", "D0d0 "),
       ("PS1", some 1, .latch, "D0L1 ", "D0d1 "),
       ("PS2", some 2, .latch, "D0L2 ", "D0d2 "),
       ("PS3", some 3, .latch, "D0L3 ", "D0d3 "),
       ("cancel", some 4, .latch, "D0L4 ", "D0d4 "),
       ("accept", some 5, .latch, "D0L5 ", "D0d5 "),
       ("motor", some 6, .plain, "D0L6 ", "D0d6 ")] ∧
    (button_down resetButton true st).2.1 = [] ∧
    (button_up resetButton true st).2.1 = ["reset "] := by
  refine ⟨by decide, ?_, ?_⟩
  · simp [button_down, resetButton, defaultButton, Board.buttons, sendIf]
  · simp [button_up, resetButton, defaultButton, Board.buttons, sendIf, update_button]

/-- Claim C5 (code bug). `on_timer_running` never invokes
`do_check_status` — the only code that ages `warn_ticks` and clears the
warning — so however many 100 ms ticks elapse, a displayed warning and
its tick counter are left exactly as they were: no warning is ever
cleared automatically, let alone by tick T+5000 ms. -/
theorem C5_warning_never_cleared (st : TimerState) (n : Nat) :
    (runTimer st n).warnText = st.warnText ∧
    (runTimer st n).warnTicks = st.warnTicks := by
  induction n generalizing st with
  | zero => exact ⟨rfl, rfl⟩
  | succ n ih =>
    have h := ih (on_timer_running st).1
    simpa [runTimer, on_timer_running] using h

/-- Claim C8, counterexample. A zero-byte send is warned about but then
retried: after one zero-byte send on a 1-byte message the loop has
issued one warning, made no progress (`total` is back to 0, the exact
state it started in) and has not exited — so an endless run of zero-byte
sends is retried forever, contradicting termination. -/
theorem C8_counterexample :
    writeRun 1 [0] 0 = (0, 1, false) ∧
    writeRun 1 (List.replicate 5 0) 0 = (0, 5, false) := by decide

/-- Claim C8, amended. The send loop writes the remaining bytes and reports
every zero-byte write as a warning, but it retries rather than aborts:
after `n` consecutive zero-byte sends it has issued `n` warnings and is
still looping with no progress, for every `n`; it terminates (with the
whole message written and no warnings) whenever every underlying send
writes at least one byte. -/
theorem C8_write_loop (len : Nat) (hlen : 0 < len) :
    (∀ n, writeRun len (List.replicate n 0) 0 = (0, n, false)) ∧
    (∀ oracle total, (∀ s ∈ oracle, 1 ≤ s) → len ≤ total + oracle.length →
      (writeRun len oracle total).2 = (0, true)) := by
  constructor
  · intro n
    induction n with
    | zero => simp [writeRun]; omega
    | succ n ih =>
      simp [List.replicate_succ, writeRun, hlen, ih]
      omega
  · intro oracle
    induction oracle with
    | nil =>
      intro total _ hle
      simp at hle
      simp [writeRun]
      omega
    | cons s rest ih =>
      intro total hmem hle
      by_cases h : total < len
      · have hs : 1 ≤ s := hmem s (by simp)
        have h2 := ih (total + s) (fun x hx => hmem x (by simp [hx]))
          (by simp at hle; omega)
        simp only [writeRun, if_pos h]
        have hs0 : (s == 0) = false := by simp; omega
        simp [hs0, h2]
      · simp [writeRun, if_neg h]

/-- Witness for C8 at a 3-byte message: two zero-byte sends leave the
loop running with two warnings; sends of 2 then 1 byte finish it. -/
theorem C8_witness :
    0 < 3 ∧ writeRun 3 (List.replicate 2 0) 0 = (0, 2, false) ∧
    (writeRun 3 [2, 1, 1] 0).2 = (0, true) :=
  ⟨by decide, (C8_write_loop 3 (by decide)).1 2,
   (C8_write_loop 3 (by decide)).2 [2, 1, 1] 0 (by decide) (by decide)⟩

/-- Claim C2, counterexample. The listener's `try` block catches only
`UserWarning` and `OSError`; the `ValueError` raised by `int('g', 16)`
(and the `IndexError` on a token shorter than 3 characters) is uncaught
and kills the thread.  Processing the batch `["-g", "+a1"]` aborts at the
first token — no warning, and the valid second token is never reached —
refuting the claim that no token ever aborts the listener loop. -/
theorem C2_counterexample :
    processToken "-g".toList = .crash ∧
    processToken "-".toList = .crash ∧
    processTokens ["-g".toList, "+a1".toList] = ([.crash], true) := by decide

/-- Claim C2, amended. Malformed tokens of the kinds the loop handles —
replies starting `?`, `=`-replies without the `?/` separator, and
`=`-replies with an unknown command prefix — produce a Warning and the
loop continues with the next token; but a token whose fixed-offset hex
digit is malformed raises an uncaught exception that terminates the
listener loop, and as long as no token crashes, every token of a batch
is processed in order. -/
theorem C2_decoder_error_handling :
    (∀ t, processToken ('?' :: t) = .warn) ∧
    (∀ t, splitSep ('=' :: t) = none → processToken ('=' :: t) = .warn) ∧
    (∀ t cmd value, splitSep ('=' :: t) = some (cmd, value) →
      replyLookup cmd = none → processToken ('=' :: t) = .warn) ∧
    (∀ c rest, hexDigit c = none →
      processToken ('-' :: 'a' :: c :: rest) = .crash) ∧
    (∀ ts, (∀ t ∈ ts, processToken t ≠ .crash) →
      processTokens ts = (ts.map processToken, false)) := by
  refine ⟨fun t => rfl, ?_, ?_, ?_, ?_⟩
  · intro t h
    have he : processToken ('=' :: t) = eqEvent ('=' :: t) := rfl
    rw [he]
    simp [eqEvent, h]
  · intro t cmd value hsep hcmd
    have he : processToken ('=' :: t) = eqEvent ('=' :: t) := rfl
    rw [he]
    simp [eqEvent, hsep, hcmd]
  · intro c rest h
    have he : processToken ('-' :: 'a' :: c :: rest) =
        pinEvent QEmuTag.pin_low ('-' :: 'a' :: c :: rest) := rfl
    rw [he]
    simp [pinEvent, h]
  · intro ts
    induction ts with
    | nil => intro _; rfl
    | cons t rest ih =>
      intro hmem
      have ht : processToken t ≠ .crash := hmem t (by simp)
      have hr := ih (fun x hx => hmem x (by simp [hx]))
      cases h : processToken t with
      | crash => exact absurd h ht
      | warn => simp [processTokens, h, hr]
      | ignored => simp [processTokens, h, hr]
      | event tag v => simp [processTokens, h, hr]

/-- Witness for C2 on concrete tokens of each handled kind, plus a
crash-free batch processed in full. -/
theorem C2_witness :
    processToken ('?' :: "x".toList) = .warn ∧
    processToken ('=' :: "d0?01".toList) = .warn ∧
    processToken ('=' :: "zz?/01".toList) = .warn ∧
    processToken ('-' :: 'a' :: 'g' :: []) = .crash ∧
    processTokens ["+a9".toList] = (["+a9".toList].map processToken, false) :=
  ⟨C2_decoder_error_handling.1 _,
   C2_decoder_error_handling.2.1 _ (by decide),
   C2_decoder_error_handling.2.2.1 _ "=zz".toList "01".toList (by decide) (by decide),
   C2_decoder_error_handling.2.2.2.1 'g' [] (by decide),
   C2_decoder_error_handling.2.2.2.2 ["+a9".toList] (by decide)⟩

/-- No lifecycle event ever reruns the replay once `connecting` is
false — and nothing, `do_connect` included, ever sets it back. -/
lemma resyncTrace_after (evs : List GuiEvent) : ∀ st : GuiState,
    st.connecting = false → resyncTrace st evs = evs.map (fun _ => false) := by
  induction evs with
  | nil => intro st _; rfl
  | cons e rest ih =>
    intro st h
    cases e with
    | connect => simpa [resyncTrace, guiStep] using ih { st with connected := true } h
    | idr v => simp [resyncTrace, guiStep, h, ih st h]
    | pinLow p =>
      simpa [resyncTrace, guiStep] using
        ih { st with board := (update_device p 0 st.connected st.board).1 } h
    | pinHigh p =>
      simpa [resyncTrace, guiStep] using
        ih { st with board := (update_device p 1 st.connected st.board).1 } h

/-- While `connecting` is still set, the replay runs exactly on the
first Idr event of the remaining trace. -/
lemma resyncTrace_first (evs : List GuiEvent) : ∀ st : GuiState,
    st.connecting = true → resyncTrace st evs = markFirstIdr evs := by
  induction evs with
  | nil => intro st _; rfl
  | cons e rest ih =>
    intro st h
    cases e with
    | connect =>
      simpa [resyncTrace, guiStep, markFirstIdr] using ih { st with connected := true } h
    | idr v =>
      simp [resyncTrace, guiStep, h, markFirstIdr]
      simpa using resyncTrace_after rest
        { st with connecting := false,
                  board := (resyncPass v st.connected st.board).1 } rfl
    | pinLow p =>
      simpa [resyncTrace, guiStep, markFirstIdr] using
        ih { st with board := (update_device p 0 st.connected st.board).1 } h
    | pinHigh p =>
      simpa [resyncTrace, guiStep, markFirstIdr] using
        ih { st with board := (update_device p 1 st.connected st.board).1 } h

/-- Claim C3, counterexample. In the trace connect, Idr, connect, Idr the
replay runs only on the second event: `do_connect` never resets the
`connecting` flag (it is assigned once, in `WmsGui.__init__`), so after
a reconnect the new connection's first Idr event does **not** rerun the
resync, refuting "a reconnect re-arms the resync". -/
theorem C3_counterexample :
    resyncTrace initGui [.connect, .idr 1, .connect, .idr 1] =
      [false, true, false, false] := by decide

/-- Claim C3, amended. The resync replay runs at most once per *process*
lifetime (not per connection): starting from the freshly built GUI it
runs exactly on the first Idr event of the whole event trace, and on no
later event — reconnects do not re-arm it. -/
theorem C3_resync_once_per_process (evs : List GuiEvent) :
    resyncTrace initGui evs = markFirstIdr evs :=
  resyncTrace_first evs initGui rfl

/-- Core of the door cycle: press, release, press, release on any
Door-style button whose pin indexes the latched list. -/
lemma door_cycle (b : Button) (hs : b.style = .door) (st : BoardState)
    (hp : pinOf b < st.latched.length) (h : latchedAt st b = false) :
    (doorSequence b st).2.1 = [sendIf true b.down, [], [], sendIf true b.up] ∧
    (doorSequence b st).2.2 = [update_button b 1, [], [], update_button b 0] ∧
    latchedAt (doorSequence b st).1 b = false := by
  have g1 : (st.latched.set (pinOf b) true).getD (pinOf b) false = true :=
    getD_set_self _ _ _ _ hp
  have g2 : ((st.latched.set (pinOf b) true).set (pinOf b)
      false).getD (pinOf b) false = false :=
    getD_set_self _ _ _ _ (by simpa using hp)
  simp only [latchedAt] at h g1 g2
  obtain ⟨nm, pin, style, dn, up, x, y, r⟩ := b
  cases style
  case plain => simp at hs
  case latch => simp at hs
  simp only [doorSequence, button_down, button_up, latchedAt, setLatched] at *
  simp only [h, if_false, Bool.false_eq_true]
  simp only [g1, if_true]
  simp only [g2, Bool.false_eq_true, if_false]
  simp

/-- Claim C6. For every Door-style button of the table starting not
latched, press/release/press/release sends exactly the down command on
the first press and the up command on the second release, renders and
sends nothing on the first release and on the second press, and returns
the button to the not-latched state. -/
theorem C6_door_press_release_twice (b : Button) (hb : b ∈ Board.buttons)
    (hs : b.style = .door) (st : BoardState)
    (h8 : st.latched.length = 8) (h : latchedAt st b = false) :
    (doorSequence b st).2.1 = [[b.down], [], [], [b.up]] ∧
    (doorSequence b st).2.2 = [update_button b 1, [], [], update_button b 0] ∧
    latchedAt (doorSequence b st).1 b = false := by
  have hcmd : sendIf true b.down = [b.down] ∧ sendIf true b.up = [b.up] := by
    simp only [Board.buttons] at hb
    fin_cases hb <;> first
      | exact absurd hs (by decide)
      | exact ⟨by decide, by decide⟩
  have hp : pinOf b < st.latched.length := by
    have : pinOf b < 8 := by
      simp only [Board.buttons] at hb
      fin_cases hb <;> first
        | exact absurd hs (by decide)
        | decide
    omega
  have := door_cycle b hs st hp h
  rwa [hcmd.1, hcmd.2] at this

/-- Witness for C6: the door button pressed and released twice from the
initial board. -/
theorem C6_witness :
    doorButton ∈ Board.buttons ∧ doorButton.style = .door ∧
    initBoard.latched.length = 8 ∧ latchedAt initBoard doorButton = false ∧
    ((doorSequence doorButton initBoard).2.1 =
      [[doorButton.down], [], [], [doorButton.up]] ∧
     (doorSequence doorButton initBoard).2.2 =
      [update_button doorButton 1, [], [], update_button doorButton 0] ∧
     latchedAt (doorSequence doorButton initBoard).1 doorButton = false) :=
  ⟨by decide, by decide, by decide, by decide,
   C6_door_press_release_twice doorButton (by decide) (by decide) initBoard
     (by decide) (by decide)⟩

/-- Claim C7, counterexample. With the latch already disabled (a 0→0
application, not a 1→0 transition), `update_device(14, 0)` still writes
every Latch-style button's up command to the socket — the claim's
"not on a 0→0 application" is false. -/
theorem C7_counterexample :
    initBoard.latch = false ∧
    (update_device 14 0 true initBoard).2.1 =
      ["D0d1 ", "D0d2 ", "D0d3 ", "D0d4 ", "D0d5 "] := by decide

/-- Claim C7, amended. `update_device(14, level)` sets the latch flag to
`level ≠ 0`; whenever the new level is 0 — on 1→0 *and* on 0→0
applications alike — every Latch-style button's latched flag is cleared,
its up command is written (when a listener is attached), and the
PS1–PS3 overlays are rendered back to the unlatched image; a non-zero
level changes nothing else and writes nothing. -/
theorem C7_latch_disable (st : BoardState) (q : Bool) :
    update_device 14 1 q st = ({ st with latch := true }, [], []) ∧
    update_device 14 0 q st =
      ({ st with latch := false,
                 latched := ((((st.latched.set 1 false).set 2 false).set 3
                   false).set 4 false).set 5 false },
       (if q then ["D0d1 ", "D0d2 ", "D0d3 ", "D0d4 ", "D0d5 "] else []),
       [("PS1", 0), ("PS2", 0), ("PS3", 0)]) := by
  constructor
  · simp +decide [update_device]
  · cases q <;> simp +decide [update_device, clearLatches, Board.buttons, pinOf]

/-- A level-1 `update_device` call never touches the latched flags and
never writes; it sets the latch flag exactly when the pin is 14. -/
lemma update_device_one (p : Nat) (q : Bool) (st : BoardState) :
    (update_device p 1 q st).1.latched = st.latched ∧
    (update_device p 1 q st).1.latch = (st.latch || (p == 14)) ∧
    (update_device p 1 q st).2.1 = [] := by
  by_cases h14 : p = 14
  · subst h14
    simp +decide [update_device]
  · have hb : (p == 14) = false := by simp [h14]
    unfold update_device
    split_ifs <;> simp_all

/-- The pin replay phase keeps the latched flags, writes nothing, and
raises the latch flag exactly when some replayed pin is 14 with its bit
set. -/
lemma resyncPins_spec (value : Nat) (q : Bool) :
    ∀ (ps : List Nat) (st : BoardState),
      (resyncPins value q ps st).1.latched = st.latched ∧
      (resyncPins value q ps st).1.latch =
        (st.latch || ps.any (fun p => p == 14 && value.testBit p)) ∧
      (resyncPins value q ps st).2 = [] := by
  intro ps
  induction ps with
  | nil => intro st; simp [resyncPins]
  | cons p rest ih =>
    intro st
    by_cases hb : value.testBit p
    · obtain ⟨e1, e2, e3⟩ := update_device_one p q st
      obtain ⟨f1, f2, f3⟩ := ih (update_device p 1 q st).1
      refine ⟨?_, ?_, ?_⟩
      · simp [resyncPins, hb, f1, e1]
      · simp [resyncPins, hb, f2, e2, List.any_cons, Bool.or_assoc]
      · simp [resyncPins, hb, f3, e3]
    · obtain ⟨f1, f2, f3⟩ := ih st
      refine ⟨f1 ▸ by simp [resyncPins, hb], ?_, f3 ▸ by simp [resyncPins, hb]⟩
      simp [resyncPins, hb, f2, List.any_cons]

/-- Overwriting a false entry with false is the identity. -/
lemma set_false_of_getD_false (l : List Bool) (p : Nat)
    (he : l.getD p false = false) : l.set p false = l := by
  induction l generalizing p with
  | nil => rfl
  | cons a t ih =>
    cases p with
    | zero => simp_all [List.getD]
    | succ n =>
      simp only [List.set_cons_succ, List.cons.injEq, true_and]
      exact ih n (by simpa [List.getD] using he)

/-- A Plain-style button contributes nothing to the replay. -/
lemma resyncButtons_cons_plain (value : Nat) (b : Button) (rest : List Button)
    (st : BoardState) (hs : b.style = .plain) :
    resyncButtons value (b :: rest) st = resyncButtons value rest st := by
  obtain ⟨nm, pin, style, dn, up, x, y, r⟩ := b
  simp only at hs
  subst hs
  cases pin with
  | none => rfl
  | some p =>
    by_cases hb : value.testBit p
    · simp [resyncButtons, hb, button_down, button_up, sendIf]
    · simp [resyncButtons, hb]

/-- A Door-style replay step sets the button's flag to its Idr bit. -/
lemma resyncButtons_cons_door (value : Nat) (b : Button) (rest : List Button)
    (st : BoardState) (p : Nat) (hpin : b.pin = some p) (hs : b.style = .door)
    (hp : p < st.latched.length) (he : st.latched.getD p false = false) :
    resyncButtons value (b :: rest) st =
      resyncButtons value rest
        { st with latched := st.latched.set p (value.testBit p) } := by
  obtain ⟨nm, pin, style, dn, up, x, y, r⟩ := b
  simp only at hpin hs
  subst hpin; subst hs
  by_cases hb : value.testBit p
  · have g1 : (st.latched.set p true).getD p false = true := getD_set_self _ _ _ _ hp
    have he2 := he
    simp only [List.getD_eq_getElem?_getD] at he2 g1
    simp [resyncButtons, hb, button_down, button_up, latchedAt, setLatched,
      pinOf, he2, g1, sendIf]
  · have hfix := set_false_of_getD_false st.latched p he
    simp [resyncButtons, hb, hfix]

/-- A Latch-style replay step sets the button's flag to its Idr bit
AND-ed with the global latch flag (`button_down` stores `self.latch`),
and writes nothing. -/
lemma resyncButtons_cons_latch (value : Nat) (b : Button) (rest : List Button)
    (st : BoardState) (p : Nat) (hpin : b.pin = some p) (hs : b.style = .latch)
    (hp : p < st.latched.length) (he : st.latched.getD p false = false) :
    resyncButtons value (b :: rest) st =
      resyncButtons value rest
        { st with latched := st.latched.set p (value.testBit p && st.latch) } := by
  obtain ⟨nm, pin, style, dn, up, x, y, r⟩ := b
  simp only at hpin hs
  subst hpin; subst hs
  by_cases hb : value.testBit p
  · have g1 : (st.latched.set p st.latch).getD p false = st.latch :=
      getD_set_self _ _ _ _ hp
    have he2 := he
    simp only [List.getD_eq_getElem?_getD] at he2 g1
    cases hl : st.latch with
    | true =>
      rw [hl] at g1
      simp [resyncButtons, hb, button_down, button_up, latchedAt, setLatched,
        pinOf, he2, g1, hl, sendIf]
    | false =>
      rw [hl] at g1
      simp [resyncButtons, hb, button_down, button_up, latchedAt, setLatched,
        pinOf, he2, g1, hl, sendIf]
  · have hfix := set_false_of_getD_false st.latched p he
    simp [resyncButtons, hb, hfix]

/-- The button replay phase over the concrete table, from all-unlatched
flags: the door's flag becomes its Idr bit; each Latch-style button's
flag becomes its Idr bit AND-ed with the latch flag; nothing is written. -/
lemma resyncButtons_table (value : Nat) (st : BoardState)
    (h8 : st.latched = List.replicate 8 false) :
    resyncButtons value Board.buttons st =
      ({ st with latched :=
          [value.testBit 0, value.testBit 1 && st.latch,
           value.testBit 2 && st.latch, value.testBit 3 && st.latch,
           value.testBit 4 && st.latch, value.testBit 5 && st.latch,
           false, false] }, []) := by
  obtain ⟨L, l, ss, mo, sp, di⟩ := st
  simp only at h8 ⊢
  subst h8
  simp only [Board.buttons]
  rw [resyncButtons_cons_plain _ _ _ _ rfl]
  rw [resyncButtons_cons_door _ _ _ _ 0 rfl rfl (by simp) (by simp)]
  simp only [show List.replicate 8 false =
    [false, false, false, false, false, false, false, false] from rfl, List.set]
  rw [resyncButtons_cons_latch _ _ _ _ 1 rfl rfl (by simp) (by simp)]
  simp only [List.set]
  rw [resyncButtons_cons_latch _ _ _ _ 2 rfl rfl (by simp) (by simp)]
  simp only [List.set]
  rw [resyncButtons_cons_latch _ _ _ _ 3 rfl rfl (by simp) (by simp)]
  simp only [List.set]
  rw [resyncButtons_cons_latch _ _ _ _ 4 rfl rfl (by simp) (by simp)]
  simp only [List.set]
  rw [resyncButtons_cons_latch _ _ _ _ 5 rfl rfl (by simp) (by simp)]
  simp only [List.set]
  rw [resyncButtons_cons_plain _ _ _ _ rfl]
  simp [resyncButtons]

/-- Claim C4, counterexample. Resync with Idr = 0x2002 (bit 13 and PS1's
pin bit 1 set, bit 14 clear): the claim demands PS1's latched flag to be
set, but after the pass every latched flag is still false — a Latch-style
button is only seeded when the latch-enable bit 14 is also set, because
`button_down` assigns `latched[pin] = self.latch`. -/
theorem C4_counterexample :
    Nat.testBit 8194 1 = true ∧
    (resyncPass 8194 true initBoard).1.latched = List.replicate 8 false ∧
    (resyncPass 8194 true initBoard).2 = [] := by decide

/-- Claim C4, amended. For every Idr value received while resync is
pending, starting from the fresh board (latch off, nothing latched), the
pass leaves latched exactly: the Door button iff its pin bit 0 is set,
and each Latch-style button iff its pin bit and the latch-enable bit 14
are both set (Plain buttons never); and the entire pass writes no
command bytes to the Transport. -/
theorem C4_resync_seeds_latched (value : Nat) (st : BoardState)
    (hl : st.latch = false) (h8 : st.latched = List.replicate 8 false) :
    (resyncPass value true st).1.latched =
      [value.testBit 0,
       value.testBit 1 && value.testBit 14, value.testBit 2 && value.testBit 14,
       value.testBit 3 && value.testBit 14, value.testBit 4 && value.testBit 14,
       value.testBit 5 && value.testBit 14, false, false] ∧
    (resyncPass value true st).2 = [] := by
  obtain ⟨p1, p2, p3⟩ :=
    resyncPins_spec value true [8, 9, 10, 11, 12, 13, 14] st
  have hlatch2 :
      (resyncPins value true [8, 9, 10, 11, 12, 13, 14] st).1.latch =
        value.testBit 14 := by
    rw [p2, hl]
    simp +decide [List.any_cons]
  have htb :=
    resyncButtons_table value
      (resyncPins value true [8, 9, 10, 11, 12, 13, 14] st).1 (by rw [p1, h8])
  rw [hlatch2] at htb
  constructor
  · rw [show (resyncPass value true st).1 =
        (resyncButtons value Board.buttons
          (resyncPins value true [8, 9, 10, 11, 12, 13, 14] st).1).1 from rfl]
    rw [htb]
  · rw [show (resyncPass value true st).2 =
        (resyncPins value true [8, 9, 10, 11, 12, 13, 14] st).2 ++
          (resyncButtons value Board.buttons
            (resyncPins value true [8, 9, 10, 11, 12, 13, 14] st).1).2 from rfl]
    rw [p3, htb]
    rfl

/-- Witness for C4 at Idr = 0x4023 (door bit 0, PS1 bit 1, accept bit 5,
latch-enable bit 14). -/
theorem C4_witness :
    initBoard.latch = false ∧ initBoard.latched = List.replicate 8 false ∧
    ((resyncPass 16419 true initBoard).1.latched =
      [Nat.testBit 16419 0,
       Nat.testBit 16419 1 && Nat.testBit 16419 14,
       Nat.testBit 16419 2 && Nat.testBit 16419 14,
       Nat.testBit 16419 3 && Nat.testBit 16419 14,
       Nat.testBit 16419 4 && Nat.testBit 16419 14,
       Nat.testBit 16419 5 && Nat.testBit 16419 14, false, false] ∧
     (resyncPass 16419 true initBoard).2 = []) :=
  ⟨rfl, rfl, C4_resync_seeds_latched 16419 initBoard rfl rfl⟩

/-! ### C1: split-invariance of the framer for ASCII streams -/

/-- The escape filter is the identity on buffers whose bytes are all
ASCII (`0xFF` cannot occur). -/
lemma stripEsc_ascii (l : List Nat) (h : ∀ b ∈ l, b < 128) :
    stripEsc l = l := by
  cases l with
  | nil => rfl
  | cons b rest =>
    have hb := h b (by simp)
    have hne : b ≠ 255 := by omega
    simp [stripEsc.eq_def, hne]

/-- Both `takeWhile` and `dropWhile` of an append whose second part starts with a
failing element (or is empty) stop within the first part. -/
lemma takeWhile_append_stop (q : Nat → Bool) (u v : List Nat)
    (hv : ∀ w, v.head? = some w → q w = false) :
    (u ++ v).takeWhile q = u.takeWhile q ∧
    (u ++ v).dropWhile q = u.dropWhile q ++ v := by
  induction u with
  | nil =>
    cases v with
    | nil => simp
    | cons w t =>
      have := hv w rfl
      simp [List.takeWhile_cons, List.dropWhile_cons, this]
  | cons a u ih =>
    by_cases hq : q a
    · simp [List.takeWhile_cons, List.dropWhile_cons, hq, ih]
    · simp [List.takeWhile_cons, List.dropWhile_cons, hq]

/-- Both `takeWhile` and `dropWhile` on a list every element of which passes. -/
lemma takeWhile_all (q : Nat → Bool) (l : List Nat)
    (h : ∀ b ∈ l, q b = true) :
    l.takeWhile q = l ∧ l.dropWhile q = [] := by
  induction l with
  | nil => simp
  | cons a t ih =>
    have ha := h a (by simp)
    simp [List.takeWhile_cons, List.dropWhile_cons, ha,
      ih (fun b hb => h b (by simp [hb]))]

/-- The head of a `dropWhile` result fails the predicate. -/
lemma head_dropWhile_false (q : Nat → Bool) (l : List Nat) :
    ∀ w, (l.dropWhile q).head? = some w → q w = false := by
  induction l with
  | nil => intro w hw; simp [List.dropWhile] at hw
  | cons a t ih =>
    intro w hw
    by_cases hq : q a
    · exact ih w (by simpa [List.dropWhile_cons, hq] using hw)
    · rw [List.dropWhile_cons, if_neg (by simp [hq])] at hw
      simp at hw
      subst hw
      simpa using hq

/-- The two halves of `splitTail` reassemble the buffer. -/
lemma splitTail_append (l : List Nat) :
    (splitTail l).1 ++ (splitTail l).2 = l := by
  simp only [splitTail]
  rw [← List.reverse_append, List.takeWhile_append_dropWhile, List.reverse_reverse]

/-- The carry produced by `splitTail` contains no whitespace byte. -/
lemma splitTail_carry_no_ws (l : List Nat) :
    ∀ b ∈ (splitTail l).2, isWS b = false := by
  intro b hb
  simp only [splitTail, List.mem_reverse] at hb
  have := List.mem_takeWhile_imp hb
  simpa using this

/-- The kept part of `splitTail` ends in a whitespace byte (when it is
non-empty). -/
lemma splitTail_kept_ends_ws (l : List Nat) :
    ∀ w, (splitTail l).1.getLast? = some w → isWS w = true := by
  intro w hw
  simp only [splitTail, List.getLast?_reverse] at hw
  have := head_dropWhile_false (fun b => !isWS b) l.reverse w hw
  simpa using this

/-- Applying `splitTail` to an all-non-whitespace buffer keeps nothing. -/
lemma splitTail_no_ws (c : List Nat) (h : ∀ b ∈ c, isWS b = false) :
    splitTail c = ([], c) := by
  obtain ⟨h1, h2⟩ := takeWhile_all (fun b => !isWS b) c.reverse
    (fun b hb => by simp [h b (List.mem_reverse.mp hb)])
  simp [splitTail, h1, h2]

/-- Splitting after a prefix that already ends in whitespace: the prefix
stays in the kept part and the carry comes from the suffix alone. -/
lemma splitTail_after_ws_block (kept x : List Nat)
    (hk : ∀ w, kept.getLast? = some w → isWS w = true) :
    splitTail (kept ++ x) =
      (kept ++ (splitTail x).1, (splitTail x).2) := by
  obtain ⟨h1, h2⟩ := takeWhile_append_stop (fun b => !isWS b) x.reverse kept.reverse
    (fun w hw => by
      rw [List.head?_reverse] at hw
      simp [hk w hw])
  simp only [splitTail, List.reverse_append, h1, h2, List.reverse_append,
    List.reverse_reverse]

/-- One unfolding step of `tokenize`. -/
lemma tokenize_cons (acc : List Nat) (b : Nat) (rest : List Nat) :
    tokenize acc (b :: rest) =
      if isWS b then
        (if acc.isEmpty then tokenize [] rest
         else acc.reverse :: tokenize [] rest)
      else tokenize (b :: acc) rest := rfl

/-- Tokenising across a boundary that follows a whitespace byte splits
into independent tokenisations (accumulator form). -/
lemma tokenize_append_aux (a : List Nat) : ∀ (acc b : List Nat) (w : Nat),
    a.getLast? = some w → isWS w = true →
    tokenize acc (a ++ b) = tokenize acc a ++ tokenize [] b := by
  induction a with
  | nil => intro acc b w hw _; simp at hw
  | cons c a ih =>
    intro acc b w hw hws
    cases a with
    | nil =>
      simp only [List.getLast?_singleton, Option.some.injEq] at hw
      subst hw
      by_cases hacc : acc.isEmpty <;>
        simp [tokenize, hws, hacc]
    | cons c2 a2 =>
      have hw2 : (c2 :: a2).getLast? = some w := by
        simpa [List.getLast?_cons_cons] using hw
      have hrec := ih [] b w hw2 hws
      have hrec2 := ih (c :: acc) b w hw2 hws
      by_cases hc : isWS c
      · by_cases hacc : acc.isEmpty
        · rw [List.cons_append, tokenize_cons, if_pos hc, if_pos hacc,
              tokenize_cons, if_pos hc, if_pos hacc, hrec]
        · rw [List.cons_append, tokenize_cons, if_pos hc, if_neg hacc,
              tokenize_cons, if_pos hc, if_neg hacc, hrec]
          simp
      · rw [List.cons_append, tokenize_cons, if_neg hc,
            tokenize_cons, if_neg hc]
        exact hrec2

/-- Tokenising across a boundary that follows a whitespace byte (or an
empty prefix) splits into independent tokenisations. -/
lemma tokenize_append (a b : List Nat)
    (ha : ∀ w, a.getLast? = some w → isWS w = true) :
    tokenize [] (a ++ b) = tokenize [] a ++ tokenize [] b := by
  cases hlast : a.getLast? with
  | none =>
    have : a = [] := by
      cases a with
      | nil => rfl
      | cons x t => simp [List.getLast?_eq_getLast] at hlast
    subst this
    simp [tokenize]
  | some w => exact tokenize_append_aux a [] b w hlast (ha w hlast)

/-- Characterisation of the whole multi-read run on an ASCII stream:
the tokens are those of the stream up to its last whitespace byte, and
the carry is the trailing unterminated token. -/
lemma readAll_spec (chunks : List (List Nat)) : ∀ (carry : List Nat),
    (∀ b ∈ carry ++ chunks.flatten, b < 128) →
    (∀ b ∈ carry, isWS b = false) →
    readAll carry chunks =
      (tokenize [] (splitTail (carry ++ chunks.flatten)).1,
       (splitTail (carry ++ chunks.flatten)).2) := by
  induction chunks with
  | nil =>
    intro carry _ hws
    simp [readAll, splitTail_no_ws carry hws, tokenize]
  | cons ch rest ih =>
    intro carry hlt hws
    have hltdata : ∀ b ∈ carry ++ ch, b < 128 := by
      intro b hb
      refine hlt b ?_
      rcases List.mem_append.mp hb with h | h
      · exact List.mem_append.mpr (Or.inl h)
      · exact List.mem_append.mpr (Or.inr (by simp [h]))
    have hstrip : stripEsc (carry ++ ch) = carry ++ ch :=
      stripEsc_ascii _ hltdata
    have hkeptmem : ∀ b ∈ (splitTail (carry ++ ch)).1, b ∈ carry ++ ch := by
      intro b hb
      rw [← splitTail_append (carry ++ ch)]
      exact List.mem_append.mpr (Or.inl hb)
    have hkept : (splitTail (carry ++ ch)).1.all (fun b => b < 128) = true := by
      rw [List.all_eq_true]
      intro b hb
      simpa using hltdata b (hkeptmem b hb)
    have hread : read carry ch =
        (some (tokenize [] (splitTail (carry ++ ch)).1),
         (splitTail (carry ++ ch)).2) := by
      simp [read, hstrip, hkept]
    have hcarrymem : ∀ b ∈ (splitTail (carry ++ ch)).2, b ∈ carry ++ ch := by
      intro b hb
      rw [← splitTail_append (carry ++ ch)]
      exact List.mem_append.mpr (Or.inr hb)
    have hih := ih (splitTail (carry ++ ch)).2
      (by
        intro b hb
        rcases List.mem_append.mp hb with h | h
        · exact hltdata b (hcarrymem b h)
        · refine hlt b (List.mem_append.mpr (Or.inr ?_))
          rw [List.flatten_cons]
          exact List.mem_append.mpr (Or.inr h))
      (splitTail_carry_no_ws (carry ++ ch))
    have hjoin : carry ++ (ch :: rest).flatten =
        (splitTail (carry ++ ch)).1 ++ ((splitTail (carry ++ ch)).2 ++ rest.flatten) := by
      rw [← List.append_assoc, splitTail_append, List.flatten_cons, ← List.append_assoc]
    have hsplit2 := splitTail_after_ws_block (splitTail (carry ++ ch)).1
      ((splitTail (carry ++ ch)).2 ++ rest.flatten)
      (splitTail_kept_ends_ws (carry ++ ch))
    rw [readAll, hread, hih, hjoin, hsplit2]
    simp only [Option.getD_some]
    rw [tokenize_append _ _ (splitTail_kept_ends_ws (carry ++ ch))]

/-- Claim C1, counterexample. Splitting the stream
`FF 01 02 'a' ' '` as `[FF]` then `[01 02 'a' ' ']` changes the token
sequence: a single read strips the full escape triplet `FF 01 02` and
yields the token `"a"`, while the split run strips only `FF` (the slice
`data[3:]` of a 1-byte buffer is empty, and the next read no longer sees
a leading `FF`), yielding the token `01 02 'a'` — reassembly is not
split-invariant when an escape triplet straddles a read boundary. -/
theorem C1_counterexample :
    ([[255], [1, 2, 97, 32]] : List (List Nat)).flatten = [255, 1, 2, 97, 32] ∧
    framerTokens [[255, 1, 2, 97, 32]] = [[97]] ∧
    framerTokens [[255], [1, 2, 97, 32]] = [[1, 2, 97]] := by decide

/-- Claim C1, amended. For every byte stream consisting of ASCII bytes
(all below `0x80`, hence containing no `0xFF` escape byte) and every way
of splitting it into consecutive chunks fed to successive receive calls,
the concatenation of the produced token sequences equals the token
sequence of a single receive of the whole stream.  (When an escape
triplet — or any non-ASCII byte — straddles a chunk boundary the
property fails, see the counterexample.) -/
theorem C1_split_invariant_ascii (chunks : List (List Nat))
    (h : ∀ b ∈ chunks.flatten, b < 128) :
    framerTokens chunks = framerTokens [chunks.flatten] := by
  unfold framerTokens
  rw [readAll_spec chunks [] (by simpa using h) (by simp),
      readAll_spec [chunks.flatten] [] (by simpa using h) (by simp)]
  simp

/-- Witness for C1 on the ASCII stream `"a b c"` split into three
chunks, one of them splitting the token `"bc"`. -/
theorem C1_witness :
    (∀ b ∈ ([[97, 32], [98], [99, 32]] : List (List Nat)).flatten, b < 128) ∧
    framerTokens [[97, 32], [98], [99, 32]] =
      framerTokens [([[97, 32], [98], [99, 32]] : List (List Nat)).flatten] :=
  ⟨by decide, C1_split_invariant_ascii _ (by decide)⟩

end QemuWms
